import Mathlib

/-!
# Verification of the forum-scraper core of `la_bot_monorep`

This file gives a shallow embedding, in Lean 4, of the candidate-selection and
change-detection logic of `src/check_first_posts_for_changes/main.py`, and
settles the frozen claims C1..C10 about it.

Modelling conventions:

* Python strings are `List Char`; `str.find`/`str.rfind`/slicing are modelled
  by `pyFind`/`pyRfind`/`pySliceFrom`/`pySliceTo` with Python's exact
  semantics (`find` returns `-1` on failure, `find` of the empty pattern
  returns `0`, slice bounds are clamped and negative bounds count from the
  end).
* Python `round` is round-half-to-even.  Every rounded expression in the
  source has the shape `round(a*b/100)` (with `a`, `b` integers), so it is
  modelled by `pyRound100 (a*b)`, round-half-to-even of the exact rational
  `a*b/100`.  (CPython evaluates `w/100*n` in floating point; for the integer
  ranges involved the float result is within 1/200 of the exact rational
  except exactly at representable halves, where CPython agrees with
  round-half-to-even on the exact value, so the model is faithful.)
* The HTTP fetch of `parse_search` is modelled by an explicit `FetchOutcome`
  describing what `requests_session.get` did: returned a body (`ok` — note an
  upstream 502 page is an `ok` outcome, since `requests` returns non-2xx
  bodies without raising unless `raise_for_status` is called), raised one of
  the two timeout classes, raised a (built-in) `ConnectionError`, or raised
  any other exception.
* The process-wide counter `bad_gateway_counter` is threaded explicitly:
  functions return the number they add to it (`counter_delta`).
* Database tables are in-memory lists of rows; SQL statements of the source
  become the corresponding list transformations.
* `datetime` values are integers (their total order is all the code uses);
  `datetime.datetime(1, 1, 1, 0, 0)` is the smallest value the type admits
  and is modelled by `0` on a `ℕ`-valued axis.
-/

/-! ## Python string primitives -/

/-- First index at which `pat` occurs in the remaining text, counting from
`i`; `none` when it never occurs.  An empty `pat` occurs at the first
position, matching CPython, where `s.find(given the empty string)` is `0`. -/
def strFindAux (pat : List Char) : List Char → Nat → Option Nat
  | [], i => if pat = [] then some i else none
  | c :: cs, i => if pat.isPrefixOf (c :: cs) then some i else strFindAux pat cs (i + 1)

/-- Python `s.find(pat)`: index of the first occurrence, `-1` if absent. -/
def pyFind (s pat : List Char) : Int :=
  match strFindAux pat s 0 with
  | some n => (n : Int)
  | none => -1

/-- Helper for `pyRfind`: best (right-most) match index seen so far. -/
def strRfindAux (pat : List Char) : List Char → Nat → Option Nat → Option Nat
  | [], i, best => if pat = [] then some i else best
  | c :: cs, i, best =>
      strRfindAux pat cs (i + 1) (if pat.isPrefixOf (c :: cs) then some i else best)

/-- Python `s.rfind(pat)`: index of the last occurrence, `-1` if absent. -/
def pyRfind (s pat : List Char) : Int :=
  match strRfindAux pat s 0 none with
  | some n => (n : Int)
  | none => -1

/-- Resolve a Python slice bound against a string of length `len`: negative
bounds count from the end, and bounds are clamped into `[0, len]`. -/
def pySliceIdx (len : Nat) (i : Int) : Nat :=
  if i < 0 then (len + i).toNat else min i.toNat len

/-- Python `s[i:]`. -/
def pySliceFrom (s : List Char) (i : Int) : List Char :=
  s.drop (pySliceIdx s.length i)

/-- Python `s[:i]`. -/
def pySliceTo (s : List Char) (i : Int) : List Char :=
  s.take (pySliceIdx s.length i)

/-- Python 3 `round(n / 100)` for an integer `n`: round-half-to-even of the
exact rational `n / 100`. -/
def pyRound100 (n : Int) : Int :=
  let q := n.fdiv 100
  let r := n.fmod 100
  if r < 50 then q
  else if 50 < r then q + 1
  else if q % 2 = 0 then q else q + 1

/-! ## `parse_search` (main.py lines 267-298) — the content fetcher -/

/-- What the single `requests_session.get` call inside `parse_search` did.
A gateway-class upstream error (502 page) is an `ok` outcome carrying the
error page as body: `requests` does not raise on non-2xx statuses.
`connError` is Python's built-in `ConnectionError`, the class named by the
source's third `except` clause; `otherExc` covers every other raised
exception (including the HTTP library's own connection-error class, which is
not a subclass of the built-in one and therefore lands in the final generic
`except Exception` clause). -/
inductive FetchOutcome where
  | ok (body : List Char)
  | readTimeout
  | timeout
  | connError
  | otherExc
deriving DecidableEq

/-- Result of `parse_search`: the decoded body if the GET returned, the
amount added to the global `bad_gateway_counter`, and whether an admin
notification was published.  The function is total: every exception path of
the source ends in `return content`, so no exception propagates. -/
structure ParseSearchResult where
  content : Option (List Char)
  counter_delta : Nat
  admin_notified : Bool
deriving DecidableEq

/-- `parse_search` (lines 267-298).  `ok` returns the body untouched;
`ReadTimeout`, `Timeout` and built-in `ConnectionError` each add 1 to the
counter and notify the admin; any other exception is logged only. -/
def parse_search (o : FetchOutcome) : ParseSearchResult :=
  match o with
  | .ok body => ⟨some body, 0, false⟩
  | .readTimeout => ⟨none, 1, true⟩
  | .timeout => ⟨none, 1, true⟩
  | .connError => ⟨none, 1, true⟩
  | .otherExc => ⟨none, 0, false⟩

/-! ## `check_topic_visibility` (lines 103-148) and
`update_one_topic_visibility` (lines 151-188) -/

/-- The deleted-topic marker scanned for by the visibility check. -/
def deletedMarker : List Char := "Запрошенной темы не существует.".toList

/-- The hidden-topic marker scanned for by the visibility check. -/
def hiddenMarker : List Char := "Для просмотра этого форума вы должны быть авторизованы".toList

/-- Triggers computed by `check_topic_visibility` when it returns normally. -/
structure VisTriggers where
  deleted_trigger : Option Bool
  hidden_trigger : Option Bool
  bad_gateway : Bool
  visibility : List Char
deriving DecidableEq

/-- `check_topic_visibility` (lines 103-148), as a function of the fetch
outcome.  Faithful points: `bad_gateway` is assigned
`content.find(the empty string) > 0` (line 118, the "temp patch"), which is
`0 > 0` for every content, hence always `false`; the monitoring block at
lines 126-129 evaluates `content[3000]` inside an f-string whenever
`content.find(given "Bad Gateway") > 0`, which raises `IndexError` when the
content is 3000 characters or shorter — modelled as the `Except.error` case.
The two `notify_admin` monitoring calls have no further effect and are not
modelled beyond that exception. -/
def check_topic_visibility (o : FetchOutcome) : Nat × Except Unit VisTriggers :=
  let ps := parse_search o
  match ps.content with
  | none => (ps.counter_delta, .ok ⟨none, none, false, "regular".toList⟩)
  | some content =>
      let bad_gateway : Bool := pyFind content [] > 0
      let test_old__bad_gateway : Bool := pyFind content "Bad Gateway".toList > 0
      if test_old__bad_gateway ∧ content.length ≤ 3000 then
        (ps.counter_delta, .error ())
      else if ¬ bad_gateway then
        let deleted : Bool := pyFind content deletedMarker > -1
        let hidden : Bool := pyFind content hiddenMarker > -1
        let vis : List Char :=
          if hidden then "hidden".toList
          else if deleted then "deleted".toList
          else "regular".toList
        (ps.counter_delta, .ok ⟨some deleted, some hidden, bad_gateway, vis⟩)
      else
        (ps.counter_delta, .ok ⟨none, none, bad_gateway, "regular".toList⟩)

/-- A row of the `search_health_check` table. -/
structure HealthRow where
  search_forum_num : Int
  status : List Char
deriving DecidableEq

/-- Result of `update_one_topic_visibility`: the table afterwards, the
amount added to `bad_gateway_counter`, and whether the `IndexError` of the
monitoring block propagated (aborting the caller's batch). -/
structure UpdateOneVisResult where
  db : List HealthRow
  counter_delta : Nat
  crashed : Bool
deriving DecidableEq

/-- `update_one_topic_visibility` (lines 151-188).  When the visibility
check reports no gateway error, the old health-check row for the search is
deleted and a fresh row with the computed visibility is inserted; when it
reports a gateway error, the counter is incremented instead and nothing is
persisted. -/
def update_one_topic_visibility (o : FetchOutcome) (db : List HealthRow) (search_id : Int) :
    UpdateOneVisResult :=
  match check_topic_visibility o with
  | (d, .error _) => ⟨db, d, true⟩
  | (d, .ok t) =>
      if ¬ t.bad_gateway then
        ⟨(db.filter fun r => !(r.search_forum_num = search_id)) ++ [⟨search_id, t.visibility⟩],
          d, false⟩
      else
        ⟨db, d + 1, false⟩

/-! ## Status classification (lines 565-595) -/

/-- Lower-casing as performed by a case-insensitive regex over this data:
CPython's case folding on the Cyrillic and ASCII ranges (А..Я to а..я,
Ё to ё, A..Z to a..z). -/
def ruLower (c : Char) : Char :=
  if 0x410 ≤ c.toNat ∧ c.toNat ≤ 0x42F then Char.ofNat (c.toNat + 0x20)
  else if c.toNat = 0x401 then Char.ofNat 0x451
  else c.toLower

/-- Substring test on an already lower-cased text. -/
def containsLC (t pat : List Char) : Bool :=
  decide (List.IsInfix pat t)

/-- One scan step of the rule `заверш` followed by any non-newline character
followed by `н` (the source regex spells it with a dot so that both `е` and
`ё` spellings match).  `t` must already be lower-cased. -/
def zavershAt (t : List Char) : Bool :=
  "заверш".toList.isPrefixOf t &&
    match t.drop 6 with
    | d :: e :: _ => decide (d ≠ '\n') && decide (e = 'н')
    | _ => false

/-- Whether the rule `заверш.н` matches anywhere in the lower-cased text. -/
def zavershMatch : List Char → Bool
  | [] => false
  | c :: cs => zavershAt (c :: cs) || zavershMatch cs

/-- The ordered classification rules of
`get_status_from_content_and_send_to_topic_management` (lines 574-589),
applied to an extracted title.  Each source regex reduces to a substring
test: the bounded wildcard prefixes, the trailing wildcard, the bounded
inter-token gaps and
the alternation making `найден` optional can all match the empty string, so
`(?i).{0,10}пропал.*` matches iff the title contains `пропал`
case-insensitively, `(?i).{0,10}(?:найден|).{0,5}жив` iff it contains `жив`,
and `(?i).{0,10}(?:найден|).{0,5}пог` iff it contains `пог`; only
`(?i).{0,10}заверш.н` keeps a mandatory wild character. -/
def get_status_of_title (title : List Char) : Option (List Char) :=
  let t := title.map ruLower
  if containsLC t "пропал".toList then some "Ищем".toList
  else if containsLC t "жив".toList then some "НЖ".toList
  else if containsLC t "пог".toList then some "НП".toList
  else if zavershMatch t then some "Завершен".toList
  else none

/-- The publication guard of line 591: a pub/sub message to topic management
is sent exactly for the three reportable statuses. -/
def status_published (st : Option (List Char)) : Bool :=
  st = some "НЖ".toList || st = some "НП".toList || st = some "Завершен".toList

/-! ## Candidate selection
(`get_list_of_searches_for_first_post_and_status_update`, lines 363-548) -/

/-- A row of the SQL extract at lines 387-444, in column order:
`search_forum_num, search_start_time, forum_folder_id, timestamp,
num_of_checks, count`.  `timestamp` (the first-post actualization time) is a
nullable datetime; `num_of_checks` and `count` (searches per folder) are
nullable integers.  Datetimes are modelled on a `Nat` axis whose `0` is
`datetime.datetime(1, 1, 1, 0, 0)`, the smallest value of the type. -/
structure RawLine where
  search_forum_num : Int
  search_start_time : Int
  forum_folder_id : Int
  timestamp : Option Nat
  num_of_checks : Option Int
  count : Option Int
deriving DecidableEq

/-- Python truthiness of a nullable integer column: `None` and `0` are falsy. -/
def falsyInt : Option Int → Bool
  | none => true
  | some n => n = 0

/-- The reshaped row built at lines 449-456:
`new_line = the columns 0, 1, 3, 5, 4 of line`, i.e. id, start time,
update time, folder count, number of checks — in that order.  `upd_time`
holds column 3 and `folder_count` column 5. -/
structure BaseLine where
  id : Int
  start_time : Int
  upd_time : Nat
  folder_count : Option Int
  checks : Option Int
deriving DecidableEq

/-- Lines 449-456 for one row: build `new_line`; when `timestamp` is falsy
(a datetime is never falsy, so: absent) substitute the sentinel minimal
datetime into slot 2 (the update time); when `num_of_checks` is falsy
substitute `1` into slot 4 (the checks count).  Slot 3 (the folder count,
column 5 of the extract) is copied unconditionally. -/
def toBaseLine (l : RawLine) : BaseLine :=
  { id := l.search_forum_num
    start_time := l.search_start_time
    upd_time := match l.timestamp with | none => 0 | some t => t
    folder_count := l.count
    checks := if falsyInt l.num_of_checks then some 1 else l.num_of_checks }

/-- The base-table formation loop at lines 447-456. -/
def form_base_table (rows : List RawLine) : List BaseLine :=
  rows.map toBaseLine

/-- A selection row with all five sort keys present, the shape on which the
five sorting passes operate (a row whose `start_time` or `folder_count`
were still `None` would make the corresponding Python `sort` raise).  Field
order follows `new_line`: id, start time, update time, folder count,
checks. -/
structure SRow where
  id : Int
  start_time : Int
  upd_time : Nat
  folder_count : Int
  checks : Int
deriving DecidableEq

/-- The five selection weights (percentages), keyed as in the source. -/
structure SelWeights where
  start_time : Int
  upd_time : Int
  folder_weight : Int
  checks_made : Int
  random : Int

/-- One pass of the dedup-picking loop used by criteria 2-5 (for example
lines 485-490): walk the sorted table, appending each row whose id is not
already among the picked ids while the per-criterion quota is positive, and
break as soon as the quota counter is exactly `0` (a negative quota never
picks and never breaks, exactly as in the source).  `ids` is the id list of
the whole outcome accumulated so far; the rows returned are this
criterion's contribution. -/
def pickPass (ids : List Int) (g : Int) : List SRow → List SRow
  | [] => []
  | r :: rs =>
      if r.id ∉ ids ∧ 0 < g then r :: pickPass (ids ++ [r.id]) (g - 1) rs
      else if g = 0 then []
      else pickPass ids g rs

/-- The five per-criterion contributions, in criterion order, of
`get_list_of_searches_for_first_post_and_status_update` (lines 458-539) on a
base table of well-typed rows, given a `shuffle` modelling
`random.shuffle`.  Criterion 1 (lines 463-472) appends the first
`group_of_searches` rows of the table sorted by newest start time with no
membership test and no bounds check: when its quota exceeds the table
length the `base_table[j]` lookup raises `IndexError` after every row was
appended, the surrounding `except` swallows it, and the partial outcome —
the whole sorted table, with no later criterion run — is returned; that is
the first branch.  Sorts are stable (CPython's sort is), each re-sorting
the table left by the previous pass. -/
def selectParts (percent : Int) (w : SelWeights) (shuffle : List SRow → List SRow)
    (base : List SRow) : List SRow × List SRow × List SRow × List SRow × List SRow :=
  let num := pyRound100 ((base.length : Int) * percent)
  let sorted1 := List.insertionSort (fun a b => b.start_time ≤ a.start_time) base
  let g1 := pyRound100 (w.start_time * num)
  if (base.length : Int) < g1 then
    (sorted1, [], [], [], [])
  else
    let p1 := sorted1.take g1.toNat
    let sorted2 := List.insertionSort (fun a b => a.upd_time ≤ b.upd_time) sorted1
    let p2 := pickPass (p1.map SRow.id) (pyRound100 (w.upd_time * num)) sorted2
    let sorted3 := List.insertionSort (fun a b => b.folder_count ≤ a.folder_count) sorted2
    let p3 := pickPass ((p1 ++ p2).map SRow.id) (pyRound100 (w.folder_weight * num)) sorted3
    let sorted4 := List.insertionSort (fun a b => a.checks ≤ b.checks) sorted3
    let p4 := pickPass ((p1 ++ p2 ++ p3).map SRow.id) (pyRound100 (w.checks_made * num)) sorted4
    let p5 := pickPass ((p1 ++ p2 ++ p3 ++ p4).map SRow.id) (pyRound100 (w.random * num))
      (shuffle sorted4)
    (p1, p2, p3, p4, p5)

/-- `get_list_of_searches_for_first_post_and_status_update` (lines 363-548):
empty when `percent_of_searches` is not positive (guard at line 377),
otherwise the concatenation of the five criteria's picks. -/
def select (percent : Int) (w : SelWeights) (shuffle : List SRow → List SRow)
    (base : List SRow) : List SRow :=
  if 0 < percent then
    match selectParts percent w shuffle base with
    | (p1, p2, p3, p4, p5) => p1 ++ p2 ++ p3 ++ p4 ++ p5
  else []

/-! ## MD5 (`hashlib.md5(content.encode()).hexdigest()`, line 358)

A complete executable MD5 over the UTF-8 encoding of the content, so that
fingerprint equalities and inequalities of concrete contents are decidable
facts of the model. -/

/-- UTF-8 encoding of one code point (`str.encode`). -/
def utf8Bytes (c : Char) : List Nat :=
  let n := c.toNat
  if n < 0x80 then [n]
  else if n < 0x800 then [0xC0 + n / 0x40, 0x80 + n % 0x40]
  else if n < 0x10000 then
    [0xE0 + n / 0x1000, 0x80 + (n / 0x40) % 0x40, 0x80 + n % 0x40]
  else
    [0xF0 + n / 0x40000, 0x80 + (n / 0x1000) % 0x40, 0x80 + (n / 0x40) % 0x40, 0x80 + n % 0x40]

/-- UTF-8 encoding of a string (`str.encode`). -/
def utf8Encode (s : List Char) : List Nat :=
  s.foldr (fun c acc => utf8Bytes c ++ acc) []

/-- 32-bit left rotation. -/
def rotl32 (x s : Nat) : Nat :=
  ((x <<< s) % 4294967296) + (x >>> (32 - s))

/-- The 64 MD5 sine-derived constants. -/
def md5K : List Nat :=
  [0xd76aa478, 0xe8c7b756, 0x242070db, 0xc1bdceee,
   0xf57c0faf, 0x4787c62a, 0xa8304613, 0xfd469501,
   0x698098d8, 0x8b44f7af, 0xffff5bb1, 0x895cd7be,
   0x6b901122, 0xfd987193, 0xa679438e, 0x49b40821,
   0xf61e2562, 0xc040b340, 0x265e5a51, 0xe9b6c7aa,
   0xd62f105d, 0x02441453, 0xd8a1e681, 0xe7d3fbc8,
   0x21e1cde6, 0xc33707d6, 0xf4d50d87, 0x455a14ed,
   0xa9e3e905, 0xfcefa3f8, 0x676f02d9, 0x8d2a4c8a,
   0xfffa3942, 0x8771f681, 0x6d9d6122, 0xfde5380c,
   0xa4beea44, 0x4bdecfa9, 0xf6bb4b60, 0xbebfbc70,
   0x289b7ec6, 0xeaa127fa, 0xd4ef3085, 0x04881d05,
   0xd9d4d039, 0xe6db99e5, 0x1fa27cf8, 0xc4ac5665,
   0xf4292244, 0x432aff97, 0xab9423a7, 0xfc93a039,
   0x655b59c3, 0x8f0ccc92, 0xffeff47d, 0x85845dd1,
   0x6fa87e4f, 0xfe2ce6e0, 0xa3014314, 0x4e0811a1,
   0xf7537e82, 0xbd3af235, 0x2ad7d2bb, 0xeb86d391]

/-- The 64 MD5 per-step rotation amounts. -/
def md5S : List Nat :=
  [7, 12, 17, 22, 7, 12, 17, 22, 7, 12, 17, 22, 7, 12, 17, 22,
   5, 9, 14, 20, 5, 9, 14, 20, 5, 9, 14, 20, 5, 9, 14, 20,
   4, 11, 16, 23, 4, 11, 16, 23, 4, 11, 16, 23, 4, 11, 16, 23,
   6, 10, 15, 21, 6, 10, 15, 21, 6, 10, 15, 21, 6, 10, 15, 21]

/-- One MD5 step on state `(a, b, c, d)` with message words `M`. -/
def md5Step (M : List Nat) (st : Nat × Nat × Nat × Nat) (i : Nat) : Nat × Nat × Nat × Nat :=
  match st with
  | (a, b, c, d) =>
      let fg : Nat × Nat :=
        if i < 16 then ((b &&& c) ||| ((b ^^^ 0xFFFFFFFF) &&& d), i)
        else if i < 32 then ((d &&& b) ||| ((d ^^^ 0xFFFFFFFF) &&& c), (5 * i + 1) % 16)
        else if i < 48 then (b ^^^ c ^^^ d, (3 * i + 5) % 16)
        else (c ^^^ (b ||| (d ^^^ 0xFFFFFFFF)), (7 * i) % 16)
      let tmp := (a + fg.1 + md5K.getD i 0 + M.getD fg.2 0) % 4294967296
      (d, (b + rotl32 tmp (md5S.getD i 0)) % 4294967296, b, c)

/-- Little-endian 32-bit words of a 64-byte block. -/
def md5Words : List Nat → List Nat
  | b0 :: b1 :: b2 :: b3 :: rest =>
      (b0 + b1 * 0x100 + b2 * 0x10000 + b3 * 0x1000000) :: md5Words rest
  | _ => []

/-- Process one 64-byte block. -/
def md5Block (st : Nat × Nat × Nat × Nat) (block : List Nat) : Nat × Nat × Nat × Nat :=
  let M := md5Words block
  match (List.range 64).foldl (md5Step M) st, st with
  | (a, b, c, d), (a0, b0, c0, d0) =>
      ((a + a0) % 4294967296, (b + b0) % 4294967296,
       (c + c0) % 4294967296, (d + d0) % 4294967296)

/-- Split a byte string into 64-byte blocks; the first argument is
structural-recursion fuel (any amount at least the length works, since each
step consumes at least one byte). -/
def chunk64Aux : Nat → List Nat → List (List Nat)
  | 0, _ => []
  | _, [] => []
  | fuel + 1, b :: bs => (b :: bs).take 64 :: chunk64Aux fuel ((b :: bs).drop 64)

/-- Split a byte string into 64-byte blocks. -/
def chunk64 (l : List Nat) : List (List Nat) :=
  chunk64Aux l.length l

/-- MD5 padding: `0x80`, zeros to 56 mod 64, then the bit length as eight
little-endian bytes. -/
def md5Pad (msg : List Nat) : List Nat :=
  let zeros := (120 - (msg.length + 1) % 64) % 64
  let bitLen := msg.length * 8
  msg ++ 0x80 :: List.replicate zeros 0 ++
    [bitLen % 0x100, bitLen / 0x100 % 0x100, bitLen / 0x10000 % 0x100,
     bitLen / 0x1000000 % 0x100, bitLen / 0x100000000 % 0x100,
     bitLen / 0x10000000000 % 0x100, bitLen / 0x1000000000000 % 0x100,
     bitLen / 0x100000000000000 % 0x100]

/-- A byte as two lower-case hex characters. -/
def hexByte (n : Nat) : List Char :=
  let dig := fun m => if m < 10 then Char.ofNat (48 + m) else Char.ofNat (87 + m)
  [dig (n / 16), dig (n % 16)]

/-- Little-endian bytes of a 32-bit word. -/
def le32Bytes (w : Nat) : List Nat :=
  [w % 0x100, w / 0x100 % 0x100, w / 0x10000 % 0x100, w / 0x1000000 % 0x100]

/-- `hashlib.md5(bytes).hexdigest()`. -/
def md5Hex (msg : List Nat) : List Char :=
  match (chunk64 (md5Pad msg)).foldl md5Block
      (0x67452301, 0xefcdab89, 0x98badcfe, 0x10325476) with
  | (a, b, c, d) =>
      ((le32Bytes a ++ le32Bytes b ++ le32Bytes c ++ le32Bytes d).map hexByte).flatten

/-- The fingerprint of line 358: MD5 hex digest of the UTF-8 encoded
normalized content. -/
def md5OfContent (s : List Char) : List Char :=
  md5Hex (utf8Encode s)

/-! ## First-post normalization (`parse_first_post`, lines 301-360) -/

/-- The start marker of the first-post region; the source advances by 21,
its length. -/
def contentDivMarker : List Char := "<div class=\"content\">".toList

/-- The end marker of the first-post region. -/
def back2topMarker : List Char := "<div class=\"back2top\">".toList

/-- Match of the view-counter regex at the head of the text.  The pattern
(a closing parenthesis, a space, digits, a space, the stem of the Russian
word for views with an optional declension ending) has no real
backtracking: the digit run is maximal — any shorter run is followed by a
digit, not the required space — and the ending alternation tries the
one-letter ending first, then the two-letter one, then the empty one, with
nothing after it in the pattern.  Digits are ASCII digits (the regex module
would also accept other Unicode decimal digits; forum view counts are
ASCII). -/
def matchView (t : List Char) : Option (List Char) :=
  match t with
  | ')' :: ' ' :: rest =>
      let ds := rest.takeWhile Char.isDigit
      if ds = [] then none
      else
        match rest.drop ds.length with
        | ' ' :: rest3 =>
            if "просмотр".toList.isPrefixOf rest3 then
              let rest4 := rest3.drop 8
              if rest4.take 1 = ['а'] then
                some (')' :: ' ' :: (ds ++ ' ' :: "просмотра".toList))
              else if "ов".toList.isPrefixOf rest4 then
                some (')' :: ' ' :: (ds ++ ' ' :: "просмотров".toList))
              else
                some (')' :: ' ' :: (ds ++ ' ' :: "просмотр".toList))
            else none
        | _ => none
  | _ => none

/-- `re.findall` for a matcher whose matches are never empty: scan left to
right, at each position emitting the match and jumping past it, otherwise
advancing one character.  The first argument is structural-recursion fuel;
the text's length is always enough since every step consumes at least one
character. -/
def scanAll (m : List Char → Option (List Char)) : Nat → List Char → List (List Char)
  | 0, _ => []
  | _, [] => []
  | fuel + 1, c :: cs =>
      match m (c :: cs) with
      | some w => w :: scanAll m fuel ((c :: cs).drop w.length)
      | none => scanAll m fuel cs

/-- `re.findall` of the view-counter pattern (line 336). -/
def findallViews (s : List Char) : List (List Char) :=
  scanAll matchView s.length s

/-- One fuelled step of Python `str.replace`: left-to-right, non-overlapping,
every occurrence.  (The empty-pattern special case of CPython is never
exercised: all replaced words here are matches of non-empty shape.) -/
def replaceAllAux (old new : List Char) : Nat → List Char → List Char
  | 0, s => s
  | _, [] => []
  | fuel + 1, c :: cs =>
      if old ≠ [] ∧ old.isPrefixOf (c :: cs) then
        new ++ replaceAllAux old new fuel ((c :: cs).drop old.length)
      else c :: replaceAllAux old new fuel cs

/-- Python `s.replace(old, new)`. -/
def replaceAll (s old new : List Char) : List Char :=
  replaceAllAux old new s.length s

/-- Match of `value=` followed by a quoted run of exactly `n` non-whitespace
characters (the 10-, 32- and 40-character volatile-token patterns of lines
342-344).  The count is exact, so there is no backtracking.  Non-whitespace
is modelled on the whitespace characters Lean's `Char.isWhitespace` knows
(space, tab, carriage return, newline), the ones relevant to this HTML. -/
def matchValueToken (n : Nat) (t : List Char) : Option (List Char) :=
  if "value=\"".toList.isPrefixOf t then
    let body := (t.drop 7).take n
    if body.length = n ∧ body.all (fun c => !c.isWhitespace) ∧ (t.drop (7 + n)).take 1 = ['"']
    then some ("value=\"".toList ++ (body ++ ['"']))
    else none
  else none

/-- Match of the 32-character session-id query parameter (line 345). -/
def matchSid (t : List Char) : Option (List Char) :=
  if "sid=".toList.isPrefixOf t then
    let body := (t.drop 4).take 32
    if body.length = 32 ∧ body.all (fun c => !c.isWhitespace) ∧
        "&amp;".toList.isPrefixOf (t.drop 36)
    then some ("sid=".toList ++ (body ++ "&amp;".toList))
    else none
  else none

/-- Opening literal of the timing-footer pattern (line 346). -/
def footerHead : List Char := "<span class=\"footer-info\"><span title=\"SQL time:".toList

/-- Closing literal of the timing-footer pattern. -/
def footerTail : List Char := "</span></span>".toList

/-- Match of the timing-footer pattern: its greedy bounded wildcard takes
the largest span between 120 and 130 non-newline characters after which the
closing literal follows. -/
def matchFooter (t : List Char) : Option (List Char) :=
  if footerHead.isPrefixOf t then
    let rest := t.drop footerHead.length
    (List.range 11).findSome? fun j =>
      let k := 130 - j
      let mid := rest.take k
      if mid.length = k ∧ mid.all (fun c => c ≠ '\n') ∧ footerTail.isPrefixOf (rest.drop k)
      then some (footerHead ++ (mid ++ footerTail))
      else none
  else none

/-- The volatile-token findall loop of lines 341-351: the five patterns are
each scanned over the same (already view-cleaned) content and their match
lists concatenated in pattern order. -/
def findallTokens (s : List Char) : List (List Char) :=
  scanAll (matchValueToken 10) s.length s
    ++ scanAll (matchValueToken 32) s.length s
    ++ scanAll (matchValueToken 40) s.length s
    ++ scanAll matchSid s.length s
    ++ scanAll matchFooter s.length s

/-- The four region cuts of lines 319-333: skip 21 characters past the
first content-div marker (when the marker is missing, `find` gives `-1` and
the slice starts at index 20); cut 12 characters before the first
back-to-top marker (missing marker: the slice keeps all but the last 13
characters); cut at the last closing-div tag; cut after the last `>`. -/
def cutFirstPostRegion (content : List Char) : List Char :=
  let start := pyFind content contentDivMarker
  let c1 := pySliceFrom content (start + 21)
  let next_block := pyFind c1 back2topMarker
  let c2 := pySliceTo c1 (next_block - 12)
  let fin_div := pyRfind c2 "</div>".toList
  let c3 := pySliceTo c2 fin_div
  let finish := pyRfind c3 ">".toList
  pySliceTo c3 (finish + 1)

/-- The dynamic-noise removal of lines 335-355: every view-counter match is
replaced by a bare closing parenthesis, then every volatile-token match is
removed. -/
def removeDynamicNoise (content : List Char) : List Char :=
  let c1 := (findallViews content).foldl (fun acc w => replaceAll acc w [')']) content
  (findallTokens c1).foldl (fun acc w => replaceAll acc w []) c1

/-- Full normalization pipeline of `parse_first_post`: region cuts, then
noise removal. -/
def normalizeFirstPost (content : List Char) : List Char :=
  removeDynamicNoise (cutFirstPostRegion content)

/-- The not-found marker as spelled at line 313 (without the trailing
period of the visibility checker's marker). -/
def notFoundMarker : List Char := "Запрошенной темы не существует".toList

/-- The gateway marker as spelled at line 312. -/
def gatewayMarker : List Char := "502 Bad Gateway".toList

/-- Result of `parse_first_post` (lines 301-360): the returned quadruple
plus the amount the call added to `bad_gateway_counter` (inside
`parse_search`). -/
structure ParseFirstPostResult where
  hash_num : Option (List Char)
  content : Option (List Char)
  bad_gateway : Bool
  not_found : Bool
  counter_delta : Nat
deriving DecidableEq

/-- `parse_first_post` (lines 301-360).  Both marker tests use `> 0`, so a
marker sitting at index 0 is missed.  On the normal path the returned
content is the normalized content and the hash its MD5 hex digest; when a
marker fires, the raw content is returned with a `none` hash; when the
fetch produced no (or an empty) body, everything except the body is at its
initial value.  The status side effect of line 317 is modelled separately
by `get_status_of_title` and changes none of the returned values. -/
def parse_first_post (o : FetchOutcome) : ParseFirstPostResult :=
  let ps := parse_search o
  match ps.content with
  | none => ⟨none, none, false, false, ps.counter_delta⟩
  | some content =>
      if content = [] then ⟨none, some [], false, false, ps.counter_delta⟩
      else
        let bad_gateway : Bool := pyFind content gatewayMarker > 0
        let not_found : Bool := pyFind content notFoundMarker > 0
        if ¬ bad_gateway ∧ ¬ not_found then
          let c := normalizeFirstPost content
          ⟨some (md5OfContent c), some c, bad_gateway, not_found, ps.counter_delta⟩
        else
          ⟨none, some content, bad_gateway, not_found, ps.counter_delta⟩

/-! ## The `search_first_posts` table and the first-post update
(`update_first_posts_and_statuses`, lines 598-700) -/

/-- A row of `search_first_posts`, in the column order of the INSERT at
lines 647-653: search id, timestamp, actual flag, content hash, content,
number of checks.  Hash, content and check count are nullable. -/
structure FPRow where
  search_id : Int
  timestamp : Int
  actual : Bool
  content_hash : Option (List Char)
  content : Option (List Char)
  num_of_checks : Option Int
deriving DecidableEq

/-- The rows the SELECT at lines 621-624 ranges over: current (actual)
snapshots of one search. -/
def currentRows (db : List FPRow) (s : Int) : List FPRow :=
  db.filter fun r => r.search_id = s ∧ r.actual

/-- `fetchone` of that SELECT: the first current snapshot, if any. -/
def fetchCurrent (db : List FPRow) (s : Int) : Option FPRow :=
  (currentRows db s).head?

/-- The body of the normal path of the update loop (lines 621-680), acting
on the table: if a current snapshot exists and the new hash differs, set
`actual = FALSE` on every row of this search and insert a fresh current row
with check count 1; if it exists and the hash is equal, bump the check
count of the current row (a falsy — absent or zero — stored count counts
as 1); if none exists, insert a fresh current row with check count 1. -/
def update_first_post_record (db : List FPRow) (now s : Int)
    (act_hash act_content : Option (List Char)) : List FPRow :=
  match fetchCurrent db s with
  | some raw =>
      let prev : Int := match raw.num_of_checks with
        | none => 1
        | some n => if n = 0 then 1 else n
      if act_hash ≠ raw.content_hash then
        (db.map fun r => if r.search_id = s then { r with actual := false } else r)
          ++ [⟨s, now, true, act_hash, act_content, some 1⟩]
      else
        db.map fun r =>
          if r.search_id = s ∧ r.actual then { r with num_of_checks := some (prev + 1) } else r
  | none => db ++ [⟨s, now, true, act_hash, act_content, some 1⟩]

/-- The invariant of the `ContentSnapshot` data model: at most one snapshot
per resource is current. -/
def atMostOneCurrent (db : List FPRow) : Prop :=
  ∀ s, (currentRows db s).length ≤ 1

/-- Decidable over any concrete table: the ids not mentioned have no rows. -/
instance : DecidablePred atMostOneCurrent := fun db =>
  decidable_of_iff (∀ r ∈ db, (currentRows db r.search_id).length ≤ 1) <| by
    constructor
    · intro h s
      match hr : currentRows db s with
      | [] => simp
      | r :: rs =>
          have hmem : r ∈ db.filter fun r => r.search_id = s ∧ r.actual := by
            rw [show db.filter (fun r => decide (r.search_id = s ∧ r.actual)) = currentRows db s
              from rfl, hr]
            exact List.mem_cons_self r rs
          have hid : r.search_id = s := by
            have := List.of_mem_filter hmem
            simp at this
            exact this.1
          have := h r (List.mem_of_mem_filter hmem)
          rw [hid] at this
          rwa [hr] at this
    · intro h r _
      exact h r.search_id

/-! ## The two batch loops (lines 191-264 and 598-700) -/

/-- Per-invocation mutable state shared by the batch loops: the health-check
table, the first-posts table and the process-wide `bad_gateway_counter`. -/
structure BatchState where
  hdb : List HealthRow
  fdb : List FPRow
  counter : Nat
deriving DecidableEq

/-- The visibility batch loop of lines 250-255 over an environment `env`
assigning each search id its fetch outcome: process one search with
`update_one_topic_visibility`, stop if that propagated the monitoring
`IndexError` (the surrounding `except` then swallows it, abandoning the
batch), and break when `bad_gateway_counter` exceeds 3.  Returns the final
state and the list of searches that were processed. -/
def visLoop (env : Int → FetchOutcome) (st : BatchState) :
    List Int → BatchState × List Int
  | [] => (st, [])
  | s :: rest =>
      let u := update_one_topic_visibility (env s) st.hdb s
      let st' : BatchState := ⟨u.db, st.fdb, st.counter + u.counter_delta⟩
      if u.crashed then (st', [s])
      else if 3 < st'.counter then (st', [s])
      else
        match visLoop env st' rest with
        | (stf, ps) => (stf, s :: ps)

/-- One iteration of the first-posts loop body (lines 613-687): fetch and
parse the first post; on the normal path update the snapshot table; when
the gateway marker fired, add 1 to the counter; when the not-found marker
fired, run a visibility update (which fetches again — the same outcome is
returned by `env` — and may propagate the monitoring `IndexError`, reported
in the second component). -/
def fpStep (env : Int → FetchOutcome) (now : Int) (st : BatchState) (s : Int) :
    BatchState × Bool :=
  let pr := parse_first_post (env s)
  let cnt := st.counter + pr.counter_delta
  if ¬ pr.bad_gateway ∧ ¬ pr.not_found then
    (⟨st.hdb, update_first_post_record st.fdb now s pr.hash_num pr.content, cnt⟩, false)
  else if pr.bad_gateway then
    (⟨st.hdb, st.fdb, cnt + 1⟩, false)
  else
    let u := update_one_topic_visibility (env s) st.hdb s
    (⟨u.db, st.fdb, cnt + u.counter_delta⟩, u.crashed)

/-- The first-posts batch loop of lines 613-687: process every candidate in
order; the loop body contains no budget check, so the only early exit is an
exception escaping the body (the monitoring `IndexError` path).  Returns
the final state and the processed candidates. -/
def fpLoop (env : Int → FetchOutcome) (now : Int) (st : BatchState) :
    List Int → BatchState × List Int
  | [] => (st, [])
  | s :: rest =>
      match fpStep env now st s with
      | (st', crashed) =>
          if crashed then (st', [s])
          else
            match fpLoop env now st' rest with
            | (stf, ps) => (stf, s :: ps)

/-- Whether `pat` matches at position `k` of `s` (Python
`s.startswith(pat, k)`); the building block for stating that a replaced
word occurs at exactly one position. -/
def occursAtB (s pat : List Char) (k : Nat) : Bool :=
  pat.isPrefixOf (s.drop k)

/-- The full matched text of a view-counter with number `N` and the plural
declension ending, as `re.findall` returns it. -/
def viewWord (N : List Char) : List Char :=
  ')' :: ' ' :: (N ++ ' ' :: "просмотров".toList)

/-! # Theorems -/

set_option maxRecDepth 4000

/-- Searching for the empty pattern reports index 0, as in CPython. -/
theorem pyFind_nil_pat (s : List Char) : pyFind s [] = 0 := by
  cases s <;> rfl

/-- A pattern whose first character never occurs in the text is not found. -/
theorem strFindAux_head_notMem {p : Char} {ps : List Char} :
    ∀ {s : List Char}, p ∉ s → ∀ i, strFindAux (p :: ps) s i = none
  | [], _, _ => rfl
  | c :: cs, h, i => by
      have hpc : ¬ p = c := fun he => h (he ▸ List.mem_cons_self c cs)
      have hne : ((p :: ps).isPrefixOf (c :: cs)) = false := by
        simp [List.isPrefixOf, hpc]
      rw [strFindAux, hne]
      simp only [Bool.false_eq_true, if_false]
      exact strFindAux_head_notMem (fun hm => h (List.mem_cons_of_mem _ hm)) (i + 1)

/-- A pattern whose first character never occurs in the text is not found. -/
theorem pyFind_head_notMem {p : Char} {ps s : List Char} (h : p ∉ s) :
    pyFind s (p :: ps) = -1 := by
  rw [pyFind, strFindAux_head_notMem h 0]

/-- C1.  The claim says a gateway-error marker in the fetched content makes
`check_topic_visibility` report `bad_gateway = true` and makes
`update_one_topic_visibility` persist nothing.  The code instead computes
`bad_gateway` as `content.find(the empty string) > 0` (line 118), which is
false for every content, so on a 502 page (here: the marker followed by
3000 filler characters, long enough to dodge the `content[3000]` of the
monitoring block) the deleted/hidden checks run, visibility comes out
`regular`, and `update_one_topic_visibility` persists a fresh `regular`
health-check row while adding nothing to the transient-failure counter.
This contradicts the code's own FIXME annotations (lines 117-129), which
mark the empty-string test as a temporary patch and name
`content.find(given the 502 marker)` as the intended check — the check the
sibling `parse_first_post` (line 312) actually performs — so the claim is
recorded as a code bug and this theorem evaluates the code at the failing
input. -/
theorem claim1_gateway_marker_bad_gateway_stays_false :
    (check_topic_visibility (.ok (gatewayMarker ++ List.replicate 3000 'z'))).2
        = .ok ⟨some false, some false, false, "regular".toList⟩
    ∧ update_one_topic_visibility (.ok (gatewayMarker ++ List.replicate 3000 'z')) [] 123
        = ⟨[⟨123, "regular".toList⟩], 0, false⟩
    ∧ pyFind (gatewayMarker ++ List.replicate 3000 'z') gatewayMarker = 0 := by
  have hdel : pyFind (gatewayMarker ++ List.replicate 3000 'z') deletedMarker = -1 := by
    rw [show deletedMarker = 'З' :: "апрошенной темы не существует.".toList from rfl]
    refine pyFind_head_notMem fun hmem => ?_
    rcases List.mem_append.mp hmem with h | h
    · exact absurd h (by decide)
    · exact absurd (List.eq_of_mem_replicate h) (by decide)
  have hhid : pyFind (gatewayMarker ++ List.replicate 3000 'z') hiddenMarker = -1 := by
    rw [show hiddenMarker
        = 'Д' :: "ля просмотра этого форума вы должны быть авторизованы".toList from rfl]
    refine pyFind_head_notMem fun hmem => ?_
    rcases List.mem_append.mp hmem with h | h
    · exact absurd h (by decide)
    · exact absurd (List.eq_of_mem_replicate h) (by decide)
  have hlen : (gatewayMarker ++ List.replicate 3000 'z').length = 3015 := by
    rw [List.length_append, List.length_replicate,
      show gatewayMarker.length = 15 from by decide]
  have hold : pyFind (gatewayMarker ++ List.replicate 3000 'z') ("Bad Gateway".toList) = 4 := by
    decide
  have hzero : pyFind (gatewayMarker ++ List.replicate 3000 'z') gatewayMarker = 0 := by
    decide
  have hempty : pyFind (gatewayMarker ++ List.replicate 3000 'z') [] = 0 := pyFind_nil_pat _
  have hcheck : check_topic_visibility (.ok (gatewayMarker ++ List.replicate 3000 'z'))
      = (0, .ok ⟨some false, some false, false, "regular".toList⟩) := by
    simp only [check_topic_visibility, parse_search, hdel, hhid, hlen, hold, hempty]
    norm_num
  refine ⟨by rw [hcheck], ?_, hzero⟩
  rw [update_one_topic_visibility, hcheck]
  simp [VisTriggers.bad_gateway]

/-- C2 (counterexample).  The claim says the title of the form
"surname, age, НЖ" is classified FoundAlive with a message published; the
classifier in fact recognizes only the spelled-out keyword `жив`, which the
two-letter abbreviation does not contain, so no status is produced and no
message is sent. -/
theorem claim2_nzh_abbreviation_unrecognized :
    get_status_of_title ("Иванов Иван, 45 НЖ".toList) = none
    ∧ get_status_of_title ("Иванов Иван, 45 НЖ".toList) ≠ some ("НЖ".toList)
    ∧ status_published (get_status_of_title ("Иванов Иван, 45 НЖ".toList)) = false := by
  refine ⟨by decide, by decide, by decide⟩

/-- C2 (amended).  On the titles named by the spec the classifier returns:
"Иванов Иван, 45, пропал" → `Ищем` with no message published;
"Иванов Иван, 45 НЖ" → no status and no message (the abbreviation is not
recognized — only the spelled-out `найден жив` form is, as the last
conjunct shows); a title with no recognizable keyword → no status and no
message. -/
theorem claim2_status_classifier_on_named_titles :
    get_status_of_title ("Иванов Иван, 45, пропал".toList) = some ("Ищем".toList)
    ∧ status_published (get_status_of_title ("Иванов Иван, 45, пропал".toList)) = false
    ∧ get_status_of_title ("Иванов Иван, 45 НЖ".toList) = none
    ∧ get_status_of_title ("Учебные сборы".toList) = none
    ∧ status_published none = false
    ∧ get_status_of_title ("Иванов Иван, 45 Найден Жив".toList) = some ("НЖ".toList)
    ∧ status_published (some ("НЖ".toList)) = true := by
  refine ⟨by decide, by decide, by decide, by decide, by decide, by decide, by decide⟩

/-- C3 (counterexample).  The claim says a row with a missing
group-popularity count gets `1` substituted for the group-popularity field.
In the code the `1` goes into slot 4 of `new_line` — the prior-checks
column — while slot 3, the group-popularity column (column 5 of the SQL
extract), is copied unchanged; a row missing both stays without a
group-popularity value. -/
theorem claim3_missing_folder_count_kept :
    (toBaseLine ⟨101, 5, 7, some 3, none, none⟩).folder_count = none
    ∧ (toBaseLine ⟨101, 5, 7, some 3, none, none⟩).folder_count ≠ some 1
    ∧ (toBaseLine ⟨101, 5, 7, some 3, none, none⟩).checks = some 1 := by
  refine ⟨by decide, by decide, by decide⟩

/-- C3 (amended).  Before any sorting, every row with a blank last-update
timestamp gets the sentinel minimal timestamp substituted (so it compares
as most overdue against every row), and every row with a falsy (absent or
zero) prior-checks count gets `1` substituted for the prior-checks field;
the group-popularity field is copied unchanged. -/
theorem claim3_base_table_substitutions (rows : List RawLine) (l : RawLine) :
    form_base_table rows = rows.map toBaseLine
    ∧ (l.timestamp = none → (toBaseLine l).upd_time = 0)
    ∧ (l.timestamp = none → ∀ l' : RawLine, (toBaseLine l).upd_time ≤ (toBaseLine l').upd_time)
    ∧ (falsyInt l.num_of_checks = true → (toBaseLine l).checks = some 1)
    ∧ (toBaseLine l).folder_count = l.count := by
  refine ⟨rfl, ?_, ?_, ?_, rfl⟩
  · intro h; simp [toBaseLine, h]
  · intro h l'; simp [toBaseLine, h]
  · intro h; simp [toBaseLine, h]

/-- C3 (witness for the amended theorem). -/
theorem claim3_base_table_substitutions_witness :
    (toBaseLine ⟨101, 5, 7, none, some 0, some 4⟩).upd_time = 0
    ∧ (toBaseLine ⟨101, 5, 7, none, some 0, some 4⟩).checks = some 1
    ∧ (toBaseLine ⟨101, 5, 7, none, some 0, some 4⟩).folder_count = some 4 := by
  obtain ⟨-, h1, -, h2, h3⟩ :=
    claim3_base_table_substitutions [] ⟨101, 5, 7, none, some 0, some 4⟩
  exact ⟨h1 rfl, h2 (by decide), h3⟩

/-- C8 (counterexample).  The claim says every transient failure — among
them a gateway-class error — makes the fetch increment the transient
counter and notify the admin.  A gateway-class error is an HTTP 502
response, which the HTTP library hands back as an ordinary body;
`parse_search` returns that body as content, adds nothing to the counter
and sends no notification (its callers are the ones that count gateway
markers). -/
theorem claim8_gateway_body_not_counted :
    parse_search (.ok ("<html>502 Bad Gateway</html>".toList))
        = ⟨some ("<html>502 Bad Gateway</html>".toList), 0, false⟩
    ∧ pyFind ("<html>502 Bad Gateway</html>".toList) gatewayMarker > 0 := by
  refine ⟨rfl, by decide⟩

/-- C8 (amended).  `parse_search` never propagates an exception (it is a
total function of the fetch outcome, every branch returning an explicit
result); on a read timeout, a generic timeout or a built-in connection
error it adds 1 to the transient-failure counter and notifies the admin; a
returned body — notably a gateway-error page — and any other exception add
nothing and notify nobody. -/
theorem claim8_parse_search_accounting (o : FetchOutcome) :
    ((o = .readTimeout ∨ o = .timeout ∨ o = .connError) → parse_search o = ⟨none, 1, true⟩)
    ∧ (∀ b, o = .ok b → parse_search o = ⟨some b, 0, false⟩)
    ∧ (o = .otherExc → parse_search o = ⟨none, 0, false⟩) := by
  refine ⟨?_, ?_, ?_⟩
  · rintro (rfl | rfl | rfl) <;> rfl
  · rintro b rfl; rfl
  · rintro rfl; rfl

/-- C8 (witness). -/
theorem claim8_parse_search_accounting_witness :
    parse_search .timeout = ⟨none, 1, true⟩ :=
  (claim8_parse_search_accounting .timeout).1 (Or.inr (Or.inl rfl))

/-- C10.  When the fetch yields no content (here: a read timeout),
`parse_first_post` returns a null hash, null content, `bad_gateway = false`
and `not_found = false`; the first-posts loop body therefore takes its
normal path, handing the null hash to the snapshot update; and when a
current snapshot with a non-null stored hash exists, that null hash
compares as different, so the update takes the fingerprint-changed branch:
every snapshot of the search is retired and a new current snapshot with a
null hash and check count 1 is inserted. -/
theorem claim10_timeout_null_hash_normal_branch :
    parse_first_post .readTimeout = ⟨none, none, false, false, 1⟩
    ∧ (∀ (st : BatchState) (now s : Int),
        fpStep (fun _ => .readTimeout) now st s
          = (⟨st.hdb, update_first_post_record st.fdb now s none none, st.counter + 1⟩, false))
    ∧ (∀ (db : List FPRow) (now s : Int) (r : FPRow), fetchCurrent db s = some r →
        none ≠ r.content_hash →
        update_first_post_record db now s none none
          = (db.map fun x => if x.search_id = s then { x with actual := false } else x)
            ++ [⟨s, now, true, none, none, some 1⟩]) := by
  refine ⟨rfl, fun st now s => rfl, fun db now s r hfetch hne => ?_⟩
  simp only [update_first_post_record, hfetch]
  rw [if_pos hne]

/-- C10 (witness). -/
theorem claim10_timeout_null_hash_normal_branch_witness :
    fpStep (fun _ => .readTimeout) 0 ⟨[], [⟨5, 0, true, some ['a'], some [], some 2⟩], 0⟩ 5
      = (⟨[], [⟨5, 0, false, some ['a'], some [], some 2⟩, ⟨5, 0, true, none, none, some 1⟩], 1⟩,
         false) := by
  rw [claim10_timeout_null_hash_normal_branch.2.1 ⟨[], [⟨5, 0, true, some ['a'], some [], some 2⟩], 0⟩ 0 5,
    claim10_timeout_null_hash_normal_branch.2.2 [⟨5, 0, true, some ['a'], some [], some 2⟩] 0 5
      ⟨5, 0, true, some ['a'], some [], some 2⟩ (by decide) (by decide)]
  decide

/-- C4 (counterexample).  With every fetch timing out, the first-posts loop
has a transient-failure counter of 4 after four candidates — the budget of
3 is exceeded — yet a fifth candidate is still processed: the loop body of
lines 613-687 contains no budget check.  The visibility loop of lines
250-255, by contrast, stops after its fourth candidate. -/
theorem claim4_first_posts_loop_ignores_budget :
    (fpLoop (fun _ => .readTimeout) 0 ⟨[], [], 0⟩ [1, 2, 3, 4]).1.counter = 4
    ∧ (fpLoop (fun _ => .readTimeout) 0 ⟨[], [], 0⟩ [1, 2, 3, 4, 5]).2 = [1, 2, 3, 4, 5]
    ∧ (visLoop (fun _ => .readTimeout) ⟨[], [], 0⟩ [1, 2, 3, 4, 5]).2 = [1, 2, 3, 4] := by
  refine ⟨by decide, by decide, by decide⟩

/-- C4 (amended).  The visibility-update loop checks the budget after each
candidate: as soon as the transient-failure counter exceeds 3 at the end of
an iteration, the remainder of its candidate list is skipped.  The
first-posts loop performs no budget check: whenever no iteration lets an
exception escape (the only exception path of its body being the
`IndexError` of the visibility monitoring block), it processes its whole
candidate list regardless of the counter. -/
theorem claim4_visibility_budget_break_fp_loop_total
    (env : Int → FetchOutcome) (st : BatchState) (l : List Int) (s : Int) (l₂ : List Int)
    (h : 3 < (visLoop env st (l ++ [s])).1.counter) :
    visLoop env st ((l ++ [s]) ++ l₂) = visLoop env st (l ++ [s])
    ∧ ∀ (env2 : Int → FetchOutcome) (now2 : Int) (st2 : BatchState) (lst : List Int),
        (∀ x ∈ lst, ∀ st', (fpStep env2 now2 st' x).2 = false) →
        (fpLoop env2 now2 st2 lst).2 = lst := by
  constructor
  · induction l generalizing st with
    | nil =>
        simp only [List.nil_append] at h ⊢
        simp only [visLoop] at h ⊢
        split
        · rfl
        · split
          · rfl
          · rename_i hcr hcnt
            rw [if_neg hcr, if_neg hcnt] at h
            exact absurd h hcnt
    | cons a l ih =>
        simp only [List.cons_append] at h ⊢
        simp only [visLoop] at h ⊢
        split
        · rfl
        · split
          · rfl
          · rename_i hcr hcnt
            rw [if_neg hcr, if_neg hcnt] at h
            have := ih ⟨(update_one_topic_visibility (env a) st.hdb a).db, st.fdb,
              st.counter + (update_one_topic_visibility (env a) st.hdb a).counter_delta⟩
            revert h this
            cases hrec : visLoop env ⟨(update_one_topic_visibility (env a) st.hdb a).db, st.fdb,
              st.counter + (update_one_topic_visibility (env a) st.hdb a).counter_delta⟩
              (l ++ [s]) with
            | mk stf ps =>
                intro hcount hih
                rw [hih hcount]
  · intro env2 now2 st2 lst hnc
    induction lst generalizing st2 with
    | nil => rfl
    | cons x xs ih =>
        simp only [fpLoop]
        have hx := hnc x (List.mem_cons_self x xs) st2
        revert hx
        cases hstep : fpStep env2 now2 st2 x with
        | mk st' crashed =>
            intro hx
            simp only at hx
            subst hx
            simp only [Bool.false_eq_true, if_false]
            have := ih st' (fun y hy => hnc y (List.mem_cons_of_mem x hy))
            revert this
            cases fpLoop env2 now2 st' xs with
            | mk stf ps => intro this; simp only at this; rw [this]

/-- C4 (witness for the amended theorem). -/
theorem claim4_visibility_budget_break_witness :
    visLoop (fun _ => .readTimeout) ⟨[], [], 0⟩ (([1, 2, 3] ++ [4]) ++ [9, 10])
        = visLoop (fun _ => .readTimeout) ⟨[], [], 0⟩ ([1, 2, 3] ++ [4])
    ∧ (fpLoop (fun _ => .readTimeout) 0 ⟨[], [], 0⟩ [7, 8]).2 = [7, 8] := by
  have h := claim4_visibility_budget_break_fp_loop_total
    (fun _ => .readTimeout) ⟨[], [], 0⟩ [1, 2, 3] 4 [9, 10] (by decide)
  exact ⟨h.1, h.2 (fun _ => .readTimeout) 0 ⟨[], [], 0⟩ [7, 8] (fun x _ st' => rfl)⟩


/-- Unfolding of the current-snapshot selection over a cons cell. -/
theorem currentRows_cons (r : FPRow) (db : List FPRow) (t : Int) :
    currentRows (r :: db) t
      = if r.search_id = t ∧ r.actual then r :: currentRows db t else currentRows db t := by
  rw [currentRows, List.filter_cons]
  by_cases hp : r.search_id = t ∧ r.actual
  · rw [if_pos, if_pos hp]
    · rfl
    · simp only [decide_eq_true_eq]
      exact hp
  · rw [if_neg, if_neg hp]
    · rfl
    · simpa using hp

/-- The current-snapshot selection distributes over append. -/
theorem currentRows_append (l₁ l₂ : List FPRow) (t : Int) :
    currentRows (l₁ ++ l₂) t = currentRows l₁ t ++ currentRows l₂ t := by
  simp [currentRows, List.filter_append]

/-- After the retire UPDATE of lines 641-644, the search has no current
snapshot left. -/
theorem currentRows_retire_self (db : List FPRow) (s : Int) :
    currentRows (db.map fun r => if r.search_id = s then { r with actual := false } else r) s
      = [] := by
  induction db with
  | nil => rfl
  | cons r rs ih =>
      rw [List.map_cons, currentRows_cons, if_neg, ih]
      by_cases hid : r.search_id = s
      · rw [if_pos hid]
        rintro ⟨-, hact⟩
        exact Bool.false_ne_true hact
      · rw [if_neg hid]
        rintro ⟨hact, -⟩
        exact hid hact

/-- The retire UPDATE touches no other search's snapshots. -/
theorem currentRows_retire_other (db : List FPRow) (s t : Int) (hne : t ≠ s)  :
    currentRows (db.map fun r => if r.search_id = s then { r with actual := false } else r) t
      = currentRows db t := by
  induction db with
  | nil => rfl
  | cons r rs ih =>
      rw [List.map_cons, currentRows_cons, currentRows_cons]
      by_cases hid : r.search_id = s
      · rw [if_pos hid, if_neg, if_neg, ih]
        · rintro ⟨hrt, -⟩
          exact hne (hid ▸ hrt :  s = t).symm
        · rintro ⟨hrt, -⟩
          exact hne (hid ▸ hrt : s = t).symm
      · rw [if_neg hid]
        by_cases hq : r.search_id = t ∧ r.actual
        · rw [if_pos hq, if_pos hq, ih]
        · rw [if_neg hq, if_neg hq, ih]

/-- The check-count UPDATE of lines 662-670 maps rows, changing neither
ids nor currency flags. -/
theorem currentRows_bump (db : List FPRow) (s : Int) (k : Int) (t : Int) :
    currentRows (db.map fun x =>
        if x.search_id = s ∧ x.actual then { x with num_of_checks := some k } else x) t
      = (currentRows db t).map fun x =>
        if x.search_id = s ∧ x.actual then { x with num_of_checks := some k } else x := by
  induction db with
  | nil => rfl
  | cons r rs ih =>
      rw [List.map_cons, currentRows_cons, currentRows_cons]
      by_cases hp : r.search_id = s ∧ r.actual
      · rw [if_pos hp]
        by_cases hq : r.search_id = t ∧ r.actual
        · rw [if_pos, if_pos hq, List.map_cons, ih, if_pos hp]
          exact ⟨hq.1, hq.2⟩
        · rw [if_neg, if_neg hq, ih]
          rintro ⟨h1, h2⟩
          exact hq ⟨h1, h2⟩
      · rw [if_neg hp]
        by_cases hq : r.search_id = t ∧ r.actual
        · rw [if_pos hq, if_pos hq, List.map_cons, ih, if_neg hp]
        · rw [if_neg hq, if_neg hq, ih]

/-- An absent `fetchone` result means no current snapshot at all. -/
theorem fetchCurrent_none_iff (db : List FPRow) (s : Int) :
    fetchCurrent db s = none ↔ currentRows db s = [] := by
  rw [fetchCurrent, List.head?_eq_none_iff]

/-- C7.  Assuming at most one snapshot per resource is current beforehand,
every branch of the first-post update preserves that invariant; moreover,
when there is no current snapshot yet or the fingerprint changed, the
search ends up with exactly one current snapshot — the freshly inserted row
with check counter 1 (the change branch having first set every previous
snapshot of the search non-current); and when the fingerprint is unchanged,
the whole update is the map that bumps the current snapshot's counter and
touches nothing else. -/
theorem claim7_single_current_snapshot_invariant (db : List FPRow) (now s : Int)
    (h c : Option (List Char)) (hinv : atMostOneCurrent db) :
    atMostOneCurrent (update_first_post_record db now s h c)
    ∧ ((fetchCurrent db s = none ∨ ∃ r, fetchCurrent db s = some r ∧ h ≠ r.content_hash) →
        currentRows (update_first_post_record db now s h c) s = [⟨s, now, true, h, c, some 1⟩])
    ∧ (∀ r, fetchCurrent db s = some r → h = r.content_hash →
        update_first_post_record db now s h c = db.map fun x =>
          if x.search_id = s ∧ x.actual then
            { x with num_of_checks := some ((match r.num_of_checks with
                | none => 1
                | some n => if n = 0 then 1 else n) + 1) }
          else x) := by
  have hnew : ∀ t : Int, currentRows [(⟨s, now, true, h, c, some 1⟩ : FPRow)] t
      = if s = t then [⟨s, now, true, h, c, some 1⟩] else [] := by
    intro t
    rw [currentRows_cons]
    by_cases hts : s = t
    · rw [if_pos ⟨hts, rfl⟩, if_pos hts]
      rfl
    · rw [if_neg, if_neg hts]
      · rfl
      · rintro ⟨h1, -⟩
        exact hts h1
  cases hf : fetchCurrent db s with
  | none =>
      have hemp : currentRows db s = [] := (fetchCurrent_none_iff db s).mp hf
      have hupd : update_first_post_record db now s h c = db ++ [⟨s, now, true, h, c, some 1⟩] := by
        rw [update_first_post_record, hf]
      refine ⟨?_, ?_, ?_⟩
      · intro t
        rw [hupd, currentRows_append, hnew]
        by_cases hts : s = t
        · rw [if_pos hts, ← hts, hemp]
          simp
        · rw [if_neg hts]
          simpa using hinv t
      · intro hor
        rw [hupd, currentRows_append, hemp, hnew, if_pos rfl]
        rfl
      · intro r hr
        exact absurd hr (by simp)
  | some raw =>
      by_cases hh : h = raw.content_hash
      · have hupd : update_first_post_record db now s h c = db.map fun x =>
            if x.search_id = s ∧ x.actual then
              { x with num_of_checks := some ((match raw.num_of_checks with
                  | none => 1
                  | some n => if n = 0 then 1 else n) + 1) }
            else x := by
          simp only [update_first_post_record, hf]
          rw [if_neg (fun hne => hne hh)]
        refine ⟨?_, ?_, ?_⟩
        · intro t
          rw [hupd, currentRows_bump, List.length_map]
          exact hinv t
        · rintro (hor | ⟨r, hr, hne⟩)
          · exact absurd hor (by simp)
          · injection hr with h2
            subst h2
            exact absurd hh hne
        · intro r hr heq
          injection hr with h2
          subst h2
          exact hupd
      · have hupd : update_first_post_record db now s h c
            = (db.map fun r => if r.search_id = s then { r with actual := false } else r)
              ++ [⟨s, now, true, h, c, some 1⟩] := by
          simp only [update_first_post_record, hf]
          rw [if_pos hh]
        refine ⟨?_, ?_, ?_⟩
        · intro t
          rw [hupd, currentRows_append, hnew]
          by_cases hts : s = t
          · rw [if_pos hts, ← hts, currentRows_retire_self]
            simp
          · rw [if_neg hts, currentRows_retire_other db s t (fun he => hts he.symm)]
            simpa using hinv t
        · intro hor
          rw [hupd, currentRows_append, currentRows_retire_self, hnew, if_pos rfl]
          rfl
        · intro r hr heq
          injection hr with h2
          subst h2
          exact absurd heq hh

/-- C7 (witness): a table holding one current and one retired snapshot of
search 7, updated with a different fingerprint. -/
theorem claim7_single_current_snapshot_invariant_witness :
    atMostOneCurrent (update_first_post_record
        [⟨7, 0, true, some ['a'], some [], some 2⟩, ⟨7, 0, false, some ['b'], none, some 1⟩]
        1 7 (some ['c']) (some ['x']))
    ∧ currentRows (update_first_post_record
        [⟨7, 0, true, some ['a'], some [], some 2⟩, ⟨7, 0, false, some ['b'], none, some 1⟩]
        1 7 (some ['c']) (some ['x'])) 7
      = [⟨7, 1, true, some ['c'], some ['x'], some 1⟩] := by
  have hmain := claim7_single_current_snapshot_invariant
    [⟨7, 0, true, some ['a'], some [], some 2⟩, ⟨7, 0, false, some ['b'], none, some 1⟩]
    1 7 (some ['c']) (some ['x']) (by decide)
  exact ⟨hmain.1, hmain.2.1 (Or.inr ⟨⟨7, 0, true, some ['a'], some [], some 2⟩, by decide, by decide⟩)⟩

/-- A picking pass selects a sublist of the table it walks. -/
theorem pickPass_sublist (ids : List Int) (g : Int) (l : List SRow) :
    (pickPass ids g l).Sublist l := by
  induction l generalizing ids g with
  | nil => exact List.Sublist.refl []
  | cons r rs ih =>
      simp only [pickPass]
      split_ifs with h1 h2
      · exact (ih _ _).cons₂ r
      · exact List.nil_sublist _
      · exact (ih _ _).cons r

/-- Rows selected by a picking pass were not among the already-taken ids. -/
theorem pickPass_fresh (ids : List Int) (g : Int) (l : List SRow) :
    ∀ r ∈ pickPass ids g l, r.id ∉ ids := by
  induction l generalizing ids g with
  | nil => intro r hr; simp [pickPass] at hr
  | cons r rs ih =>
      simp only [pickPass]
      split_ifs with h1 h2
      · intro x hx
        rcases List.mem_cons.mp hx with rfl | hx'
        · exact h1.1
        · intro hmem
          exact ih _ _ x hx' (List.mem_append_left _ hmem)
      · intro x hx
        simp at hx
      · exact ih _ _
  
/-- The ids selected by one picking pass are pairwise distinct. -/
theorem pickPass_nodup (ids : List Int) (g : Int) (l : List SRow) :
    ((pickPass ids g l).map SRow.id).Nodup := by
  induction l generalizing ids g with
  | nil => simp [pickPass]
  | cons r rs ih =>
      simp only [pickPass]
      split_ifs with h1 h2
      · rw [List.map_cons]
        refine List.nodup_cons.mpr ⟨?_, ih _ _⟩
        intro hmem
        rcases List.mem_map.mp hmem with ⟨x, hx, hxid⟩
        refine pickPass_fresh _ _ _ x hx ?_
        rw [hxid]
        exact List.mem_append_right _ (by simp)
      · simp
      · exact ih _ _

/-- One picking pass takes at most its quota. -/
theorem pickPass_length (ids : List Int) (g : Int) (l : List SRow) :
    (pickPass ids g l).length ≤ g.toNat := by
  induction l generalizing ids g with
  | nil => simp [pickPass]
  | cons r rs ih =>
      simp only [pickPass]
      split_ifs with h1 h2
      · rw [List.length_cons]
        have hlen := ih (ids ++ [r.id]) (g - 1)
        have hg : 0 < g := h1.2
        omega
      · simp
      · exact ih _ _

/-- Appending a picking pass keyed on the ids accumulated so far keeps the
accumulated ids pairwise distinct. -/
theorem pickPass_accum_nodup (acc : List SRow) (g : Int) (l : List SRow)
    (hacc : (acc.map SRow.id).Nodup) :
    ((acc ++ pickPass (acc.map SRow.id) g l).map SRow.id).Nodup := by
  rw [List.map_append]
  refine List.Nodup.append hacc (pickPass_nodup _ _ _) ?_
  intro a ha hb
  rcases List.mem_map.mp hb with ⟨x, hx, hxid⟩
  rw [← hxid] at ha
  exact pickPass_fresh _ _ _ x hx ha

/-- A list whose image under an injective-on-it key map is duplicate-free
and whose members all lie in a second list is no longer than that list. -/
theorem nodup_subset_length (f : SRow → Int) (l₁ l₂ : List SRow)
    (hnd : (l₁.map f).Nodup) (hsub : ∀ x ∈ l₁, x ∈ l₂) : l₁.length ≤ l₂.length := by
  have hs : l₁.map f ⊆ l₂.map f := List.map_subset f hsub
  have := (List.subperm_of_subset hnd hs).length_le
  simpa using this

/-- C5.  For every population with pairwise-distinct resource ids, every
weights map, every target percentage and every shuffle that permutes its
input, the candidate selection returns a list with no id twice whose length
is at most the population size, and (whenever the percentage guard lets it
run at all) that list is the concatenation of the five criteria's picks in
criterion order — including the degenerate case in which criterion 1's
quota exceeds the table and the loop's `IndexError` ends the selection with
criterion 1's picks alone. -/
theorem claim5_selection_nodup_bounded_concat (percent : Int) (w : SelWeights)
    (shuffle : List SRow → List SRow) (base : List SRow)
    (hids : (base.map SRow.id).Nodup) (hsh : ∀ l, (shuffle l).Perm l) :
    (0 < percent → select percent w shuffle base =
      (selectParts percent w shuffle base).1 ++ (selectParts percent w shuffle base).2.1
        ++ (selectParts percent w shuffle base).2.2.1
        ++ (selectParts percent w shuffle base).2.2.2.1
        ++ (selectParts percent w shuffle base).2.2.2.2)
    ∧ ((select percent w shuffle base).map SRow.id).Nodup
    ∧ (select percent w shuffle base).length ≤ base.length := by
  by_cases hp : 0 < percent
  · rw [select, if_pos hp]
    simp only [selectParts]
    split
    case _ h =>
      refine ⟨fun _ => trivial, ?_, ?_⟩
      · simp only [List.append_nil]
        exact ((List.perm_insertionSort _ base).map SRow.id).nodup_iff.mpr hids
      · simp only [List.append_nil]
        exact (List.perm_insertionSort _ base).length_eq.le
    case _ h =>
      have hperm1 : (List.insertionSort (fun a b => b.start_time ≤ a.start_time) base).Perm base :=
        List.perm_insertionSort _ base
      have hperm2 : (List.insertionSort (fun a b => a.upd_time ≤ b.upd_time)
          (List.insertionSort (fun a b => b.start_time ≤ a.start_time) base)).Perm base :=
        (List.perm_insertionSort _ _).trans hperm1
      have hperm3 : (List.insertionSort (fun a b => b.folder_count ≤ a.folder_count)
          (List.insertionSort (fun a b => a.upd_time ≤ b.upd_time)
            (List.insertionSort (fun a b => b.start_time ≤ a.start_time) base))).Perm base :=
        (List.perm_insertionSort _ _).trans hperm2
      have hperm4 : (List.insertionSort (fun a b => a.checks ≤ b.checks)
          (List.insertionSort (fun a b => b.folder_count ≤ a.folder_count)
            (List.insertionSort (fun a b => a.upd_time ≤ b.upd_time)
              (List.insertionSort (fun a b => b.start_time ≤ a.start_time) base)))).Perm base :=
        (List.perm_insertionSort _ _).trans hperm3
      have hperm5 := (hsh (List.insertionSort (fun a b => a.checks ≤ b.checks)
          (List.insertionSort (fun a b => b.folder_count ≤ a.folder_count)
            (List.insertionSort (fun a b => a.upd_time ≤ b.upd_time)
              (List.insertionSort (fun a b => b.start_time ≤ a.start_time) base))))).trans hperm4
      have hnd1 : (((List.insertionSort (fun a b => b.start_time ≤ a.start_time) base).take
          (pyRound100 (w.start_time * pyRound100 ((base.length : Int) * percent))).toNat).map
            SRow.id).Nodup := by
        refine List.Nodup.sublist (List.Sublist.map _ (List.take_sublist _ _)) ?_
        exact (hperm1.map SRow.id).nodup_iff.mpr hids
      refine ⟨fun _ => trivial, ?_, ?_⟩
      · exact pickPass_accum_nodup _ _ _ (pickPass_accum_nodup _ _ _
          (pickPass_accum_nodup _ _ _ (pickPass_accum_nodup _ _ _ hnd1)))
      · refine nodup_subset_length SRow.id _ base ?_ ?_
        · exact pickPass_accum_nodup _ _ _ (pickPass_accum_nodup _ _ _
            (pickPass_accum_nodup _ _ _ (pickPass_accum_nodup _ _ _ hnd1)))
        · intro x hx
          simp only [List.mem_append] at hx
          rcases hx with ((((hx | hx) | hx) | hx) | hx)
          · exact hperm1.subset ((List.take_sublist _ _).subset hx)
          · exact hperm2.subset ((pickPass_sublist _ _ _).subset hx)
          · exact hperm3.subset ((pickPass_sublist _ _ _).subset hx)
          · exact hperm4.subset ((pickPass_sublist _ _ _).subset hx)
          · exact hperm5.subset ((pickPass_sublist _ _ _).subset hx)
  · rw [select, if_neg hp]
    exact ⟨fun hc => absurd hc hp, by simp, by simp⟩

/-- C6.  With the target count `num = round(len*percent/100)` of line 458,
each of the five criteria contributes at most
`round(weight/100*num)` rows to the selection, for every population,
percentage and weights map with percentages at most 100 (the splits are
stated with the exact integer arithmetic `pyRound100` models; criterion 1's
bound also covers the `IndexError` path, where the whole table — still no
more than its quota — is returned). -/
theorem claim6_selection_quota_bounds (percent : Int) (w : SelWeights)
    (shuffle : List SRow → List SRow) (base : List SRow)
    (hpercent : percent ≤ 100) (h1 : w.start_time ≤ 100) (h2 : w.upd_time ≤ 100)
    (h3 : w.folder_weight ≤ 100) (h4 : w.checks_made ≤ 100) (h5 : w.random ≤ 100) :
    (selectParts percent w shuffle base).1.length
        ≤ (pyRound100 (w.start_time * pyRound100 ((base.length : Int) * percent))).toNat
    ∧ (selectParts percent w shuffle base).2.1.length
        ≤ (pyRound100 (w.upd_time * pyRound100 ((base.length : Int) * percent))).toNat
    ∧ (selectParts percent w shuffle base).2.2.1.length
        ≤ (pyRound100 (w.folder_weight * pyRound100 ((base.length : Int) * percent))).toNat
    ∧ (selectParts percent w shuffle base).2.2.2.1.length
        ≤ (pyRound100 (w.checks_made * pyRound100 ((base.length : Int) * percent))).toNat
    ∧ (selectParts percent w shuffle base).2.2.2.2.length
        ≤ (pyRound100 (w.random * pyRound100 ((base.length : Int) * percent))).toNat := by
  simp only [selectParts]
  split
  case _ h =>
    refine ⟨?_, by simp, by simp, by simp, by simp⟩
    have hlen := (List.perm_insertionSort
      (fun (a b : SRow) => b.start_time ≤ a.start_time) base).length_eq
    simp only [hlen]
    omega
  case _ h =>
    refine ⟨?_, pickPass_length _ _ _, pickPass_length _ _ _,
      pickPass_length _ _ _, pickPass_length _ _ _⟩
    simp [List.length_take]

/-- C6 (witness): five rows, 40 percent, mixed weights. -/
theorem claim6_selection_quota_bounds_witness :
    (selectParts 40 ⟨50, 30, 10, 10, 20⟩ (fun l => l)
        [⟨1, 10, 5, 3, 1⟩, ⟨2, 11, 4, 7, 2⟩, ⟨3, 9, 6, 2, 1⟩, ⟨4, 8, 2, 9, 5⟩,
         ⟨5, 12, 1, 6, 4⟩]).1.length
      ≤ (pyRound100 (50 * pyRound100 (5 * 40))).toNat := by
  exact (claim6_selection_quota_bounds 40 ⟨50, 30, 10, 10, 20⟩ (fun l => l)
    [⟨1, 10, 5, 3, 1⟩, ⟨2, 11, 4, 7, 2⟩, ⟨3, 9, 6, 2, 1⟩, ⟨4, 8, 2, 9, 5⟩, ⟨5, 12, 1, 6, 4⟩]
    (by decide) (by decide) (by decide) (by decide) (by decide) (by decide)).1

/-- C5 (witness): three rows, 20 percent, equal weights, identity
shuffle. -/
theorem claim5_selection_nodup_bounded_concat_witness :
    ((select 20 ⟨20, 20, 20, 20, 20⟩ (fun l => l)
        [⟨1, 10, 5, 3, 1⟩, ⟨2, 11, 4, 7, 2⟩, ⟨3, 9, 6, 2, 1⟩]).map SRow.id).Nodup
    ∧ (select 20 ⟨20, 20, 20, 20, 20⟩ (fun l => l)
        [⟨1, 10, 5, 3, 1⟩, ⟨2, 11, 4, 7, 2⟩, ⟨3, 9, 6, 2, 1⟩]).length ≤ 3 := by
  have h := claim5_selection_nodup_bounded_concat 20 ⟨20, 20, 20, 20, 20⟩ (fun l => l)
    [⟨1, 10, 5, 3, 1⟩, ⟨2, 11, 4, 7, 2⟩, ⟨3, 9, 6, 2, 1⟩] (by decide)
    (fun l => List.Perm.refl l)
  exact ⟨h.2.1, h.2.2⟩

/-- Beyond the end of the text a non-empty pattern matches nowhere. -/
theorem occursAtB_past_end {s pat : List Char} (hpat : pat ≠ []) {k : Nat}
    (hk : s.length ≤ k) : occursAtB s pat k = false := by
  rw [occursAtB, List.drop_eq_nil_of_le hk]
  cases pat with
  | nil => exact absurd rfl hpat
  | cons p ps => rfl

/-- Shifting an occurrence test over an appended prefix. -/
theorem occursAtB_append (X Y pat : List Char) (k : Nat) :
    occursAtB (X ++ Y) pat (X.length + k) = occursAtB Y pat k := by
  rw [occursAtB, List.drop_append, occursAtB]

/-- A replacement scan over text in which the word occurs nowhere copies
the text unchanged, whatever the fuel. -/
theorem replaceAllAux_no_occ {w : List Char} (r : List Char) :
    ∀ (s : List Char) (fuel : Nat), (∀ k, occursAtB s w k = false) →
      replaceAllAux w r fuel s = s
  | [], 0, _ => rfl
  | [], fuel + 1, _ => rfl
  | c :: cs, 0, _ => rfl
  | c :: cs, fuel + 1, hno => by
      have h0 : w.isPrefixOf (c :: cs) = false := hno 0
      rw [replaceAllAux, if_neg]
      · rw [replaceAllAux_no_occ r cs fuel fun k => hno (k + 1)]
      · rintro ⟨-, hpre⟩
        rw [h0] at hpre
        exact Bool.false_ne_true hpre

/-- If a non-empty word occurs in `A ++ w ++ B` only at the seam — at
position `A.length` — then Python `replace` rewrites exactly that one
occurrence. -/
theorem replaceAll_single_occ (w r : List Char) (hw : w ≠ []) :
    ∀ (A B : List Char) (fuel : Nat), fuel = (A ++ w ++ B).length →
      (∀ k, occursAtB (A ++ w ++ B) w k = true → k = A.length) →
      replaceAllAux w r fuel (A ++ w ++ B) = A ++ r ++ B
  | [], B, fuel, hfuel, huniq => by
      cases w with
      | nil => exact absurd rfl hw
      | cons p ps =>
          subst hfuel
          simp only [List.nil_append, List.cons_append, List.length_cons]
          rw [replaceAllAux, if_pos]
          · have hdrop : (p :: (ps ++ B)).drop (p :: ps).length = B := by
              show (ps ++ B).drop ps.length = B
              simp
            rw [hdrop, replaceAllAux_no_occ r B _ ?_]
            intro k
            by_cases hk : occursAtB B (p :: ps) k = true
            · exfalso
              have hx := huniq ((p :: ps).length + k) ?_
              · simp only [List.length_nil, List.length_cons] at hx
                omega
              · show occursAtB ((p :: ps) ++ B) (p :: ps) ((p :: ps).length + k) = true
                rw [occursAtB_append]
                exact hk
            · exact Bool.eq_false_iff.mpr hk
          · exact ⟨hw, by
              show (p :: ps).isPrefixOf ((p :: ps) ++ B) = true
              rw [List.isPrefixOf_iff_prefix]
              exact List.prefix_append _ _⟩
  | a :: A, B, fuel, hfuel, huniq => by
      subst hfuel
      simp only [List.cons_append, List.length_cons]
      rw [replaceAllAux, if_neg]
      · rw [replaceAll_single_occ w r hw A B ((A ++ w ++ B).length) rfl ?_]
        intro k hk
        have hx := huniq (k + 1) hk
        simp only [List.length_cons] at hx
        omega
      · rintro ⟨-, hpre⟩
        have hx := huniq 0 hpre
        simp at hx

/-- A bounded single-occurrence certificate (checkable by evaluation)
extends to all positions. -/
theorem uniq_unbounded {s w : List Char} {L : Nat} (hw : w ≠ [])
    (hU : ∀ k < s.length, occursAtB s w k = true → k = L) :
    ∀ k, occursAtB s w k = true → k = L := by
  intro k hk
  by_cases h : k < s.length
  · exact hU k h hk
  · rw [occursAtB_past_end hw (le_of_not_lt h)] at hk
    exact absurd hk (by simp)

/-- On the normal path (non-empty body, neither marker at a positive
index) the returned fingerprint is the MD5 of the normalized content. -/
theorem parse_first_post_ok_hash (c : List Char) (hc : c ≠ [])
    (hbg : pyFind c gatewayMarker ≤ 0) (hnf : pyFind c notFoundMarker ≤ 0) :
    (parse_first_post (.ok c)).hash_num = some (md5OfContent (normalizeFirstPost c)) := by
  simp only [parse_first_post, parse_search]
  rw [if_neg hc, if_pos]
  constructor
  · intro h
    exact absurd (of_decide_eq_true h) (not_lt.mpr hbg)
  · intro h
    exact absurd (of_decide_eq_true h) (not_lt.mpr hnf)

/-- When the only view-counter match of the sliced region is one designated
occurrence, the view-removal phase rewrites exactly it to a bare
parenthesis, and the noise removal continues on that text. -/
theorem removeDynamicNoise_single_view (A B N : List Char)
    (hscan : findallViews (A ++ viewWord N ++ B) = [viewWord N])
    (huniq : ∀ k, occursAtB (A ++ viewWord N ++ B) (viewWord N) k = true → k = A.length) :
    removeDynamicNoise (A ++ viewWord N ++ B)
      = (findallTokens (A ++ [')'] ++ B)).foldl (fun acc w => replaceAll acc w [])
          (A ++ [')'] ++ B) := by
  have hrepl : replaceAll (A ++ viewWord N ++ B) (viewWord N) [')'] = A ++ [')'] ++ B := by
    rw [replaceAll]
    exact replaceAll_single_occ _ _ (by simp [viewWord]) A B _ rfl huniq
  rw [removeDynamicNoise, hscan]
  simp only [List.foldl_cons, List.foldl_nil]
  rw [hrepl]

/-- When the sliced region has no view-counter match and exactly one
volatile-token match, at one designated occurrence, the noise removal
deletes exactly that occurrence. -/
theorem removeDynamicNoise_single_token (A B w : List Char) (hw : w ≠ [])
    (hview : findallViews (A ++ w ++ B) = [])
    (hscan : findallTokens (A ++ w ++ B) = [w])
    (huniq : ∀ k, occursAtB (A ++ w ++ B) w k = true → k = A.length) :
    removeDynamicNoise (A ++ w ++ B) = A ++ B := by
  have hrepl : replaceAll (A ++ w ++ B) w [] = A ++ [] ++ B := by
    rw [replaceAll]
    exact replaceAll_single_occ _ _ hw A B _ rfl huniq
  rw [removeDynamicNoise, hview]
  simp only [List.foldl_nil, hscan, List.foldl_cons, hrepl]
  simp

/-- C9 (amended).  Two fetched contents identical except for the numeric
value of a view-counter, or except for a volatile token's matched text, get
equal fingerprints, provided the changed occurrence is the only match of
the dynamic-noise patterns in the sliced region and its matched text occurs
nowhere else in that region (the counterexample shows the proviso is
needed: a second view-counter whose matched text is a proper prefix of the
changed one breaks the invariance).  First half: view counters; second
half: volatile tokens (quoted 10/32/40-character values, session-id
parameters and timing footers alike enter through the `findallTokens`
hypothesis). -/
theorem claim9_fingerprint_invariant_modulo_noise :
    (∀ (c1 c2 A B N1 N2 : List Char), c1 ≠ [] → c2 ≠ [] →
      pyFind c1 gatewayMarker ≤ 0 → pyFind c1 notFoundMarker ≤ 0 →
      pyFind c2 gatewayMarker ≤ 0 → pyFind c2 notFoundMarker ≤ 0 →
      cutFirstPostRegion c1 = A ++ viewWord N1 ++ B →
      cutFirstPostRegion c2 = A ++ viewWord N2 ++ B →
      findallViews (cutFirstPostRegion c1) = [viewWord N1] →
      findallViews (cutFirstPostRegion c2) = [viewWord N2] →
      (∀ k < (A ++ viewWord N1 ++ B).length,
        occursAtB (A ++ viewWord N1 ++ B) (viewWord N1) k = true → k = A.length) →
      (∀ k < (A ++ viewWord N2 ++ B).length,
        occursAtB (A ++ viewWord N2 ++ B) (viewWord N2) k = true → k = A.length) →
      (parse_first_post (.ok c1)).hash_num = (parse_first_post (.ok c2)).hash_num)
    ∧ (∀ (c1 c2 A B w1 w2 : List Char), c1 ≠ [] → c2 ≠ [] →
      pyFind c1 gatewayMarker ≤ 0 → pyFind c1 notFoundMarker ≤ 0 →
      pyFind c2 gatewayMarker ≤ 0 → pyFind c2 notFoundMarker ≤ 0 →
      w1 ≠ [] → w2 ≠ [] →
      cutFirstPostRegion c1 = A ++ w1 ++ B →
      cutFirstPostRegion c2 = A ++ w2 ++ B →
      findallViews (cutFirstPostRegion c1) = [] →
      findallViews (cutFirstPostRegion c2) = [] →
      findallTokens (cutFirstPostRegion c1) = [w1] →
      findallTokens (cutFirstPostRegion c2) = [w2] →
      (∀ k < (A ++ w1 ++ B).length, occursAtB (A ++ w1 ++ B) w1 k = true → k = A.length) →
      (∀ k < (A ++ w2 ++ B).length, occursAtB (A ++ w2 ++ B) w2 k = true → k = A.length) →
      (parse_first_post (.ok c1)).hash_num = (parse_first_post (.ok c2)).hash_num) := by
  constructor
  · intro c1 c2 A B N1 N2 hc1 hc2 hbg1 hnf1 hbg2 hnf2 hsplit1 hsplit2 hscan1 hscan2 hU1 hU2
    rw [hsplit1] at hscan1
    rw [hsplit2] at hscan2
    rw [parse_first_post_ok_hash c1 hc1 hbg1 hnf1, parse_first_post_ok_hash c2 hc2 hbg2 hnf2]
    rw [normalizeFirstPost, normalizeFirstPost, hsplit1, hsplit2]
    rw [removeDynamicNoise_single_view A B N1 hscan1
        (uniq_unbounded (by simp [viewWord]) hU1),
      removeDynamicNoise_single_view A B N2 hscan2
        (uniq_unbounded (by simp [viewWord]) hU2)]
  · intro c1 c2 A B w1 w2 hc1 hc2 hbg1 hnf1 hbg2 hnf2 hw1 hw2 hsplit1 hsplit2 hv1 hv2
      hscan1 hscan2 hU1 hU2
    rw [hsplit1] at hscan1 hv1
    rw [hsplit2] at hscan2 hv2
    rw [parse_first_post_ok_hash c1 hc1 hbg1 hnf1, parse_first_post_ok_hash c2 hc2 hbg2 hnf2]
    rw [normalizeFirstPost, normalizeFirstPost, hsplit1, hsplit2]
    rw [removeDynamicNoise_single_token A B w1 hw1 hv1 hscan1 (uniq_unbounded hw1 hU1),
      removeDynamicNoise_single_token A B w2 hw2 hv2 hscan2 (uniq_unbounded hw2 hU2)]

/-- C9 (counterexample).  Two contents identical except for the numeric
value of a view-counter substring — 12 versus 99 — whose fingerprints
differ: the page also contains the bare-declension match `) 12 просмотр`,
whose text is a proper prefix of `) 12 просмотров`; its global replacement
destroys the changed counter in the first content but not in the second,
leaving different normalized texts (the first ends the counter as `)ов`,
the second as `)`), hence different MD5 digests. -/
theorem claim9_view_count_change_can_change_fingerprint :
    ("<div class=\"content\">mix ) 12 просмотрx and ) 12 просмотров <b>t</b> plus</div>ZZZZZZZZZZZZ<div class=\"back2top\">tail".toList
      = "<div class=\"content\">mix ) 12 просмотрx and ) ".toList ++ "12".toList
        ++ " просмотров <b>t</b> plus</div>ZZZZZZZZZZZZ<div class=\"back2top\">tail".toList)
    ∧ ("<div class=\"content\">mix ) 12 просмотрx and ) 99 просмотров <b>t</b> plus</div>ZZZZZZZZZZZZ<div class=\"back2top\">tail".toList
      = "<div class=\"content\">mix ) 12 просмотрx and ) ".toList ++ "99".toList
        ++ " просмотров <b>t</b> plus</div>ZZZZZZZZZZZZ<div class=\"back2top\">tail".toList)
    ∧ viewWord "12".toList ∈ findallViews (cutFirstPostRegion
        "<div class=\"content\">mix ) 12 просмотрx and ) 12 просмотров <b>t</b> plus</div>ZZZZZZZZZZZZ<div class=\"back2top\">tail".toList)
    ∧ viewWord "99".toList ∈ findallViews (cutFirstPostRegion
        "<div class=\"content\">mix ) 12 просмотрx and ) 99 просмотров <b>t</b> plus</div>ZZZZZZZZZZZZ<div class=\"back2top\">tail".toList)
    ∧ (parse_first_post (.ok
        "<div class=\"content\">mix ) 12 просмотрx and ) 12 просмотров <b>t</b> plus</div>ZZZZZZZZZZZZ<div class=\"back2top\">tail".toList)).hash_num
      ≠ (parse_first_post (.ok
        "<div class=\"content\">mix ) 12 просмотрx and ) 99 просмотров <b>t</b> plus</div>ZZZZZZZZZZZZ<div class=\"back2top\">tail".toList)).hash_num := by
  refine ⟨by decide, by decide, by decide, by decide, by decide⟩

/-- C9 (witness for the amended theorem): contents differing only in a
view count, with the counter the region's sole dynamic element. -/
theorem claim9_fingerprint_invariant_modulo_noise_witness :
    (parse_first_post (.ok
        "<div class=\"content\">Text (img.jpg) 55 просмотров <b>bold</b> x</div>ZZZZZZZZZZZZ<div class=\"back2top\">tail".toList)).hash_num
      = (parse_first_post (.ok
        "<div class=\"content\">Text (img.jpg) 56 просмотров <b>bold</b> x</div>ZZZZZZZZZZZZ<div class=\"back2top\">tail".toList)).hash_num := by
  exact claim9_fingerprint_invariant_modulo_noise.1
    "<div class=\"content\">Text (img.jpg) 55 просмотров <b>bold</b> x</div>ZZZZZZZZZZZZ<div class=\"back2top\">tail".toList
    "<div class=\"content\">Text (img.jpg) 56 просмотров <b>bold</b> x</div>ZZZZZZZZZZZZ<div class=\"back2top\">tail".toList
    "Text (img.jpg".toList " <b>bold</b>".toList "55".toList "56".toList
    (by decide) (by decide) (by decide) (by decide) (by decide) (by decide)
    (by decide) (by decide) (by decide) (by decide) (by decide) (by decide)
